import Mathlib

/-!
Verification of the Pilgrim Map Kit track profile core.

This file gives a shallow embedding of the algorithmic core of
`PilgrimMapKit` (GPX parsing into an elevation/distance series, stage
marker extraction, and the nearest-index locator used for cursor
synchronization), together with theorems settling the specification's
claims about it.

Modelling conventions:
* JS numbers are modelled as real numbers `ℝ`; the value `NaN` (and the
  other non-finite values) produced by `parseFloat` on non-numeric text is
  modelled by `Option ℝ` with `none` standing for a non-finite value, since
  `NaN` propagates through arithmetic (`NaN * x = NaN`, `NaN / x = NaN`)
  and fails the `isFinite` test.
* The DOM extraction is abstracted: a `<trkpt>` element is a `RawTrkpt`
  whose `eleText` field is `none` when no `<ele>` child is present, and
  otherwise carries the text content of the `<ele>` element, which is
  either numeric text (`EleText.num x`) or text on which `parseFloat`
  yields `NaN` (`EleText.junk`).
* The nearest-index locator `kmToIndex` is stated generically over a
  `LinearOrderedField` so that concrete witnesses can be evaluated over
  `ℚ`; the track pipeline instantiates it at `ℝ`.
-/

namespace PilgrimMapKit

/-- Text content of an `<ele>` element: either numeric text carrying the
value `x`, or text on which `parseFloat` returns `NaN`. -/
inductive EleText where
  | num : ℝ → EleText
  | junk : EleText

/-- A raw `<trkpt>` element: `lat`/`lon` attributes (decimal degrees) and
the optional `<ele>` child (`none` when the element is absent). -/
structure RawTrkpt where
  lat : ℝ
  lon : ℝ
  eleText : Option EleText

/-- A parsed track point, as built inside `parseGPXToSeries`:
`{ lat, lon, ele }` where `ele` is the result of
`parseFloat(pt.getElementsByTagName('ele')[0]?.textContent ?? '0')`,
with `none` standing for a non-finite (`NaN`) result. -/
structure TrkPt where
  lat : ℝ
  lon : ℝ
  ele : Option ℝ

instance : Inhabited TrkPt := ⟨⟨0, 0, none⟩⟩

/-- `parseFloat(eleElement?.textContent ?? '0')`: a missing `<ele>`
element falls back to the text `'0'` and so parses to `0`; numeric text
parses to its value; non-numeric text parses to `NaN` (`none`). -/
def parseEle : Option EleText → Option ℝ
  | none => some 0
  | some (EleText.num x) => some x
  | some EleText.junk => none

/-- The per-point mapping inside the `trks.forEach` loop of
`parseGPXToSeries`. -/
def parseTrkpt (r : RawTrkpt) : TrkPt :=
  ⟨r.lat, r.lon, parseEle r.eleText⟩

/-- `toRad(deg) = deg * Math.PI / 180`. -/
noncomputable def toRad (deg : ℝ) : ℝ := deg * Real.pi / 180

/-- `haversineMiles(a, b)`: half-angle sine-squared haversine distance with
fixed Earth radius `6371` km, converted to miles by the factor `0.621371`. -/
noncomputable def haversineMiles (a b : TrkPt) : ℝ :=
  let dLat := toRad (b.lat - a.lat)
  let dLon := toRad (b.lon - a.lon)
  let A := Real.sin (dLat / 2) ^ 2 +
    Real.cos (toRad a.lat) * Real.cos (toRad b.lat) * Real.sin (dLon / 2) ^ 2
  let d_km := 2 * 6371 * Real.arcsin (Real.sqrt A)
  d_km * 0.621371

/-- The cumulative-distance loop of `parseGPXToSeries`, after the seed
entry: `prev` is `distMi[i-1]` and `p` is `pts[i-1]`; each step pushes
`distMi[i-1] + haversineMiles(pts[i-1], pts[i])`. -/
noncomputable def distMiAux (prev : ℝ) (p : TrkPt) : List TrkPt → List ℝ
  | [] => []
  | q :: rest =>
    (prev + haversineMiles p q) :: distMiAux (prev + haversineMiles p q) q rest

/-- `const distMi = [0]; for (i = 1; i < pts.length; i++) distMi.push(...)`:
the array always starts with the seed `0`, even when `pts` is empty. -/
noncomputable def distMiList : List TrkPt → List ℝ
  | [] => [0]
  | p :: rest => 0 :: distMiAux 0 p rest

/-- One step of the elevation loop:
`const ele = isFinite(pts[i].ele) ? pts[i].ele : (elevFt[i-1] / 3.28084);`
`elevFt.push(ele * 3.28084)`. A non-finite previous output keeps the
result non-finite (`NaN / f * f = NaN`). -/
noncomputable def elevStep (prev : Option ℝ) : Option ℝ → Option ℝ
  | some x => some (x * 3.28084)
  | none =>
    match prev with
    | some p => some (p / 3.28084 * 3.28084)
    | none => none

/-- The seed entry `(pts[0]?.ele ?? 0) * 3.28084`: the `?? 0` fallback
fires only when `pts` is empty (`pts[0]` is `undefined`); a `NaN`
elevation of an existing first point passes through `??` unchanged and
makes the product `NaN`. -/
noncomputable def elevFt0 : List TrkPt → Option ℝ
  | [] => some 0
  | p :: _ =>
    match p.ele with
    | some x => some (x * 3.28084)
    | none => none

/-- The elevation loop body for indices `1 ≤ i < pts.length`. -/
noncomputable def elevFtAux (prev : Option ℝ) : List TrkPt → List (Option ℝ)
  | [] => []
  | p :: rest => elevStep prev p.ele :: elevFtAux (elevStep prev p.ele) rest

/-- The full `elevFt` array: the seed entry followed by the loop over
`pts[1..]`. -/
noncomputable def elevFtList (pts : List TrkPt) : List (Option ℝ) :=
  elevFt0 pts ::
    (match pts with
     | [] => []
     | _ :: rest => elevFtAux (elevFt0 pts) rest)

/-- `stageEndIdx`: after flattening each `<trk>`'s points into `pts`, the
value `pts.length - 1` is pushed; `n` is the number of points flattened so
far. The result is an integer because the first entry is `-1` when the
first segment is empty. -/
def stageEndIdxAux : List (List TrkPt) → ℕ → List ℤ
  | [], _ => []
  | t :: ts, n => ((n : ℤ) + t.length - 1) :: stageEndIdxAux ts (n + t.length)

/-- The `stageEndIdx` array of `parseGPXToSeries`. -/
def stageEndIdxList (segs : List (List TrkPt)) : List ℤ :=
  stageEndIdxAux segs 0

/-- A stage scatter point `{ x, y, _isFinal }`. -/
structure StagePt where
  x : ℝ
  y : Option ℝ
  isFinal : Bool

/-- The body of the `.map((idx, s) => ...)` call building `stageScatter`:
`L` is `stageEndIdx.length` (the unfiltered length). -/
noncomputable def mkStagePt (L : ℕ) (distMi : List ℝ) (elevFt : List (Option ℝ))
    (s : ℕ) (idx : ℤ) : StagePt :=
  ⟨distMi.getD idx.toNat 0, elevFt.getD idx.toNat none, s == L - 1⟩

/-- `stageEndIdx.filter(idx => idx > 0).map((idx, s) => ({x, y, _isFinal}))`. -/
noncomputable def stageScatterList (stageEndIdx : List ℤ) (distMi : List ℝ)
    (elevFt : List (Option ℝ)) : List StagePt :=
  (stageEndIdx.filter (fun idx => 0 < idx)).mapIdx
    (mkStagePt stageEndIdx.length distMi elevFt)

/-- The artifact returned by `parseGPXToSeries`. -/
structure Series where
  pts : List TrkPt
  distMi : List ℝ
  elevFt : List (Option ℝ)
  totalMi : ℝ
  stageScatter : List StagePt

/-- The per-`<trk>` parsed point lists. -/
def parsedSegs (trks : List (List RawTrkpt)) : List (List TrkPt) :=
  trks.map (fun t => t.map parseTrkpt)

/-- The flat `pts` array across all `<trk>` elements in document order. -/
def flatParsedPts (trks : List (List RawTrkpt)) : List TrkPt :=
  (parsedSegs trks).flatten

/-- `parseGPXToSeries`: throws `'No <trk> in GPX'` when there is no `<trk>`
element, otherwise builds `pts`, `distMi`, `elevFt`, `totalMi` and
`stageScatter` exactly as the source loop does. -/
noncomputable def parseGPXToSeries (trks : List (List RawTrkpt)) :
    Except String Series :=
  if trks.length = 0 then Except.error "No <trk> in GPX"
  else
    Except.ok
      ⟨flatParsedPts trks,
       distMiList (flatParsedPts trks),
       elevFtList (flatParsedPts trks),
       (distMiList (flatParsedPts trks)).getLastD 0,
       stageScatterList (stageEndIdxList (parsedSegs trks))
         (distMiList (flatParsedPts trks)) (elevFtList (flatParsedPts trks))⟩

/-- The binary-search loop of `kmToIndex`:
`while (lo < hi) { mid = (lo + hi) >> 1; if (distMi[mid] < mi) lo = mid + 1; else hi = mid; }`. -/
def kmToIndexLoop {α : Type} [LinearOrderedField α] (d : List α) (mi : α)
    (lo hi : ℕ) : ℕ :=
  if lo < hi then
    if d.getD ((lo + hi) / 2) 0 < mi then kmToIndexLoop d mi ((lo + hi) / 2 + 1) hi
    else kmToIndexLoop d mi lo ((lo + hi) / 2)
  else lo
termination_by hi - lo
decreasing_by
  all_goals omega

/-- `kmToIndex(mi)`: lower-bound binary search over `distMi`, then choose
between `i1 = max(0, lo - 1)` and `i2 = lo` by comparing absolute
differences (`<=` sends ties to `i1`). -/
def kmToIndex {α : Type} [LinearOrderedField α] (d : List α) (mi : α) : ℕ :=
  let i2 := kmToIndexLoop d mi 0 (d.length - 1)
  let i1 := i2 - 1
  if |d.getD i1 0 - mi| ≤ |d.getD i2 0 - mi| then i1 else i2

/-- A raw track point at the origin with a numeric elevation reading of 0,
used as concrete test input. -/
def rawOrigin : RawTrkpt := ⟨0, 0, some (EleText.num 0)⟩

/-- Scenario B concrete input, segment 1: five points. -/
def scenBt1 : List RawTrkpt := List.replicate 5 rawOrigin

/-- Scenario B concrete input, segment 2: four points. -/
def scenBt2 : List RawTrkpt := List.replicate 4 rawOrigin

/-- Scenario B concrete input, segment 3: three points. -/
def scenBt3 : List RawTrkpt := List.replicate 3 rawOrigin

/-! ### Basic facts about the distance accumulator -/

theorem hav_shape_nonneg (A : ℝ) :
    0 ≤ 2 * 6371 * Real.arcsin (Real.sqrt A) * 0.621371 := by
  have h1 : 0 ≤ Real.arcsin (Real.sqrt A) :=
    Real.arcsin_nonneg.mpr (Real.sqrt_nonneg A)
  nlinarith [h1]

theorem haversineMiles_nonneg (a b : TrkPt) : 0 ≤ haversineMiles a b :=
  hav_shape_nonneg _

theorem distMiAux_chain' :
    ∀ (rest : List TrkPt) (prev : ℝ) (p : TrkPt),
      List.Chain' (· ≤ ·) (prev :: distMiAux prev p rest)
  | [], _, _ => by simp [distMiAux]
  | q :: rest, prev, p => by
    simp only [distMiAux]
    exact List.chain'_cons.mpr
      ⟨le_add_of_nonneg_right (haversineMiles_nonneg p q),
       distMiAux_chain' rest _ q⟩

theorem distMiList_getD_zero (pts : List TrkPt) : (distMiList pts).getD 0 0 = 0 := by
  cases pts <;> rfl

theorem distMiList_chain' (pts : List TrkPt) :
    List.Chain' (· ≤ ·) (distMiList pts) := by
  cases pts with
  | nil => simp [distMiList]
  | cons p rest => exact distMiAux_chain' rest 0 p

/-- C3: for every track of (finite-coordinate) points, the cumulative
distance series starts at `0` and is non-decreasing step by step, because
every consecutive haversine distance is nonnegative. -/
theorem distMi_starts_at_zero_and_monotone :
    ∀ pts : List TrkPt,
      (distMiList pts).getD 0 0 = 0 ∧ List.Chain' (· ≤ ·) (distMiList pts) ∧
        ∀ a b : TrkPt, 0 ≤ haversineMiles a b :=
  fun pts => ⟨distMiList_getD_zero pts, distMiList_chain' pts, haversineMiles_nonneg⟩

/-! ### Lengths of the computed series -/

theorem distMiAux_length :
    ∀ (rest : List TrkPt) (prev : ℝ) (p : TrkPt),
      (distMiAux prev p rest).length = rest.length
  | [], _, _ => rfl
  | q :: rest, prev, p => by
    simp only [distMiAux, List.length_cons]
    rw [distMiAux_length rest]

theorem elevFtAux_length :
    ∀ (rest : List TrkPt) (prev : Option ℝ),
      (elevFtAux prev rest).length = rest.length
  | [], _ => rfl
  | q :: rest, prev => by
    simp only [elevFtAux, List.length_cons]
    rw [elevFtAux_length rest]

theorem distMiList_length (pts : List TrkPt) :
    (distMiList pts).length = max pts.length 1 := by
  cases pts with
  | nil => rfl
  | cons p rest =>
    simp only [distMiList, List.length_cons, distMiAux_length]
    omega

theorem elevFtList_cons (p : TrkPt) (rest : List TrkPt) :
    elevFtList (p :: rest) =
      elevFt0 (p :: rest) :: elevFtAux (elevFt0 (p :: rest)) rest := rfl

theorem elevFtList_length (pts : List TrkPt) :
    (elevFtList pts).length = max pts.length 1 := by
  cases pts with
  | nil => rfl
  | cons p rest =>
    rw [elevFtList_cons]
    simp only [List.length_cons, elevFtAux_length]
    omega

theorem parse_ok_iff (trks : List (List RawTrkpt)) :
    (parseGPXToSeries trks).isOk = true ↔ trks ≠ [] := by
  cases trks with
  | nil => simp [parseGPXToSeries, Except.isOk, Except.toBool]
  | cons t ts => simp [parseGPXToSeries, Except.isOk, Except.toBool]

/-- C4 (amended): construction fails exactly when the document has zero
segments (`trks = []`); the distance and elevation arrays always have
length `max N 1`, so they agree with the point count whenever `N ≥ 1`, but
a segment list whose flat point sequence is empty still builds, with
`distMi` and `elevFt` of length 1 against `pts` of length 0. -/
theorem parse_ok_iff_and_series_lengths :
    (∀ trks : List (List RawTrkpt),
        (parseGPXToSeries trks).isOk = true ↔ trks ≠ []) ∧
      ∀ pts : List TrkPt,
        (distMiList pts).length = max pts.length 1 ∧
          (elevFtList pts).length = max pts.length 1 :=
  ⟨parse_ok_iff, fun pts => ⟨distMiList_length pts, elevFtList_length pts⟩⟩

/-- C4 (counterexample): a document with one segment containing zero
points is NOT rejected — the build succeeds with an empty `pts` array
(`N = 0`) and `distMi`/`elevFt` arrays of length 1, refuting both the
fails-on-`N = 0` part and the equal-lengths part of the claim. -/
theorem parse_empty_points_succeeds_cex :
    (parseGPXToSeries [[]]).isOk = true ∧
      (parseGPXToSeries [[]]).toOption.map
          (fun s => (s.pts.length, s.distMi.length, s.elevFt.length)) =
        some (0, 1, 1) :=
  ⟨rfl, rfl⟩

/-! ### Elevation normalization at the first point -/

/-- C5 (counterexample): for a track whose first point carries a
non-numeric elevation reading, `elevationSeries[0]` is the non-finite
value `NaN` (modelled `none`), not `0`: the `?? 0` fallback does not catch
`NaN`. -/
theorem elevFt_first_junk_not_zero_cex :
    (elevFtList [parseTrkpt ⟨0, 0, some EleText.junk⟩]).getD 0 none ≠ some 0 := by
  simp [elevFtList, elevFt0, parseTrkpt, parseEle]

/-- C5 (amended): a non-finite raw elevation reading at point 0 is NOT
treated as `0`; it propagates (`NaN ?? 0 === NaN`, and `NaN * 3.28084` is
`NaN`), so `elevationSeries[0]` is non-finite (`none`), for every track
starting with such a point. -/
theorem elevFt_first_junk_is_nan (lat lon : ℝ) (rest : List TrkPt) :
    (elevFtList (parseTrkpt ⟨lat, lon, some EleText.junk⟩ :: rest)).getD 0 none =
      none := by
  rw [elevFtList_cons]
  simp [elevFt0, parseTrkpt, parseEle]

/-- C7 (counterexample): a point with a MISSING elevation element is
parsed with the fallback text `'0'`, so its elevation is the finite value
`0`, not a carry-forward of the previous point's elevation: with a first
point at elevation 100 the series reads `[328.084, 0]`, and
`elevationSeries[1] ≠ elevationSeries[0]`. -/
theorem elevFt_missing_ele_not_carry_cex :
    (elevFtList [parseTrkpt ⟨0, 0, some (EleText.num 100)⟩,
        parseTrkpt ⟨0, 0, none⟩]).getD 1 none ≠
      (elevFtList [parseTrkpt ⟨0, 0, some (EleText.num 100)⟩,
          parseTrkpt ⟨0, 0, none⟩]).getD 0 none := by
  rw [elevFtList_cons]
  simp [elevFt0, elevFtAux, elevStep, parseTrkpt, parseEle]
  norm_num

/-! ### Indexed facts about the elevation series -/

theorem elevFtAux_getElem?_of_ele_some :
    ∀ (l : List TrkPt) (prev : Option ℝ) (i : ℕ) (pt : TrkPt) (x : ℝ),
      l[i]? = some pt → pt.ele = some x →
      (elevFtAux prev l)[i]? = some (some (x * 3.28084))
  | [], _, i, _, _, h, _ => by simp at h
  | p :: rest, prev, 0, pt, x, h, hx => by
    simp only [List.getElem?_cons_zero, Option.some.injEq] at h
    subst h
    simp [elevFtAux, elevStep, hx]
  | p :: rest, prev, i + 1, pt, x, h, hx => by
    simp only [List.getElem?_cons_succ] at h
    simpa [elevFtAux] using
      elevFtAux_getElem?_of_ele_some rest (elevStep prev p.ele) i pt x h hx

theorem elevFtList_getElem?_of_ele_some (pts : List TrkPt) (i : ℕ) (pt : TrkPt)
    (x : ℝ) (h : pts[i]? = some pt) (hx : pt.ele = some x) :
    (elevFtList pts)[i]? = some (some (x * 3.28084)) := by
  cases pts with
  | nil => simp at h
  | cons p rest =>
    rw [elevFtList_cons]
    cases i with
    | zero =>
      simp only [List.getElem?_cons_zero, Option.some.injEq] at h
      subst h
      simp [elevFt0, hx]
    | succ i =>
      simp only [List.getElem?_cons_succ] at h ⊢
      exact elevFtAux_getElem?_of_ele_some rest _ i pt x h hx

theorem elevFtAux_getElem?_succ :
    ∀ (l : List TrkPt) (prev : Option ℝ) (i : ℕ) (pt : TrkPt),
      l[i + 1]? = some pt →
      ∃ prevEntry, (elevFtAux prev l)[i]? = some prevEntry ∧
        (elevFtAux prev l)[i + 1]? = some (elevStep prevEntry pt.ele)
  | [], _, i, pt, h => by simp at h
  | p :: rest, prev, 0, pt, h => by
    simp only [List.getElem?_cons_succ] at h
    cases rest with
    | nil => simp at h
    | cons q rest2 =>
      simp only [List.getElem?_cons_zero, Option.some.injEq] at h
      subst h
      exact ⟨elevStep prev p.ele, by simp [elevFtAux], by simp [elevFtAux]⟩
  | p :: rest, prev, i + 1, pt, h => by
    simp only [List.getElem?_cons_succ] at h
    obtain ⟨pe, h1, h2⟩ := elevFtAux_getElem?_succ rest (elevStep prev p.ele) i pt h
    exact ⟨pe, by simpa [elevFtAux] using h1, by simpa [elevFtAux] using h2⟩

theorem elevFtList_getElem?_succ (pts : List TrkPt) (i : ℕ) (pt : TrkPt)
    (h : pts[i + 1]? = some pt) :
    ∃ prevEntry, (elevFtList pts)[i]? = some prevEntry ∧
      (elevFtList pts)[i + 1]? = some (elevStep prevEntry pt.ele) := by
  cases pts with
  | nil => simp at h
  | cons p rest =>
    rw [elevFtList_cons]
    cases i with
    | zero =>
      simp only [List.getElem?_cons_succ] at h
      cases rest with
      | nil => simp at h
      | cons q rest2 =>
        simp only [List.getElem?_cons_zero, Option.some.injEq] at h
        subst h
        exact ⟨elevFt0 (p :: q :: rest2), by simp, by simp [elevFtAux]⟩
    | succ i =>
      simp only [List.getElem?_cons_succ] at h ⊢
      exact elevFtAux_getElem?_succ rest _ i pt h

theorem elevStep_some_none (y : ℝ) : elevStep (some y) none = some y := by
  show some (y / 3.28084 * 3.28084) = some y
  rw [div_mul_cancel₀]
  norm_num

/-- C6: in a track whose only non-finite elevation reading sits at index
`k > 0`, the normalizer carries the previous output's raw-unit value
forward (divide by the factor, multiply again), so
`elevationSeries[k] = elevationSeries[k-1]` exactly. -/
theorem elevFt_carry_forward (pts : List TrkPt) (k : ℕ)
    (hk : 0 < k) (hklen : k < pts.length)
    (hnan : (pts.getD k default).ele = none)
    (hfin : ∀ j, j < pts.length → j ≠ k → ((pts.getD j default).ele).isSome = true) :
    (elevFtList pts).getD k none = (elevFtList pts).getD (k - 1) none := by
  obtain ⟨m, rfl⟩ : ∃ m, k = m + 1 := ⟨k - 1, by omega⟩
  have hmlt : m < pts.length := by omega
  have hget : pts[m + 1]? = some (pts.getD (m + 1) default) := by
    rw [List.getD_eq_getElem?_getD, List.getElem?_eq_getElem hklen]
    simp
  obtain ⟨pe, h1, h2⟩ := elevFtList_getElem?_succ pts m _ hget
  obtain ⟨x, hx⟩ := Option.isSome_iff_exists.mp (hfin m hmlt (by omega))
  have hgetm : pts[m]? = some (pts.getD m default) := by
    rw [List.getD_eq_getElem?_getD, List.getElem?_eq_getElem hmlt]
    simp
  have hprev := elevFtList_getElem?_of_ele_some pts m (pts.getD m default) x hgetm hx
  have hpe : pe = some (x * 3.28084) := Option.some.inj (h1.symm.trans hprev)
  have hstep : elevStep pe ((pts.getD (m + 1) default).ele) = pe := by
    rw [hpe, hnan, elevStep_some_none]
  rw [List.getD_eq_getElem?_getD, List.getD_eq_getElem?_getD, Nat.add_sub_cancel,
    h2, h1, hstep]

/-- Witness for the carry-forward theorem: a three-point track whose
middle reading is non-finite, with finite readings around it. -/
theorem elevFt_carry_forward_witness :
    ((0 : ℕ) < 1 ∧
        1 < ([⟨0, 0, some 1⟩, ⟨0, 0, none⟩, ⟨0, 0, some 2⟩] : List TrkPt).length) ∧
      (elevFtList [⟨0, 0, some 1⟩, ⟨0, 0, none⟩, ⟨0, 0, some 2⟩]).getD 1 none =
        (elevFtList [⟨0, 0, some 1⟩, ⟨0, 0, none⟩, ⟨0, 0, some 2⟩]).getD 0 none :=
  ⟨⟨by decide, by decide⟩,
    elevFt_carry_forward [⟨0, 0, some 1⟩, ⟨0, 0, none⟩, ⟨0, 0, some 2⟩] 1
      (by decide) (by decide) rfl (by decide)⟩

/-- C7 (amended): a point whose elevation element is missing is parsed
with the text fallback `'0'`, so at every index its entry in the elevation
series is the finite value `0` (`0 * 3.28084`), not a carry-forward of the
previous output; carry-forward applies only to non-numeric readings. -/
theorem elevFt_missing_ele_is_zero (a : List TrkPt) (lat lon : ℝ) (b : List TrkPt) :
    (elevFtList (a ++ parseTrkpt ⟨lat, lon, none⟩ :: b)).getD a.length none =
      some 0 := by
  have hget : (a ++ parseTrkpt ⟨lat, lon, none⟩ :: b)[a.length]? =
      some (parseTrkpt ⟨lat, lon, none⟩) := by
    rw [List.getElem?_append_right (le_refl a.length)]
    simp
  have h := elevFtList_getElem?_of_ele_some _ a.length _ 0 hget rfl
  rw [List.getD_eq_getElem?_getD, h]
  norm_num

/-! ### Stage markers -/

/-- C2 (code bug): when the first segment-ending index is `0` (a
one-point leading segment) and is filtered out, the callback index `s`
of the filtered array is compared against the UNFILTERED length, so no
emitted marker ever satisfies `s === stageEndIdx.length - 1`: for a track
with segments of 1 and 2 points, the single emitted marker has
`isFinal = false`, i.e. no marker is final. -/
theorem stageScatter_no_final_when_first_index_zero :
    (parseGPXToSeries [[rawOrigin], [rawOrigin, rawOrigin]]).toOption.map
        (fun s => s.stageScatter.map StagePt.isFinal) =
      some [false] := rfl

theorem stageEndIdx_scenarioB (t1 t2 t3 : List RawTrkpt)
    (h1 : t1.length = 5) (h2 : t2.length = 4) (h3 : t3.length = 3) :
    stageEndIdxList (parsedSegs [t1, t2, t3]) = [4, 8, 11] := by
  simp [stageEndIdxList, stageEndIdxAux, parsedSegs, h1, h2, h3]

/-- C8 (counterexample): the concrete 3-segment track with 5/4/3 points
produces THREE stage markers, not the two the claim asserts — the last
point of the final segment (flat index 11) also gets a marker. -/
theorem scenarioB_not_two_markers_cex :
    ¬ ((parseGPXToSeries [scenBt1, scenBt2, scenBt3]).toOption.map
          (fun s => s.stageScatter.length) =
        some 2) := by
  have h3 : (parseGPXToSeries [scenBt1, scenBt2, scenBt3]).toOption.map
      (fun s => s.stageScatter.length) = some 3 := rfl
  rw [h3]
  simp

/-- C8 (amended): every 3-segment track with 5, 4 and 3 points yields
exactly three stage markers, at flat indices 4, 8 and 11, with only the
third (the last segment's end) marked final. -/
theorem scenarioB_three_markers (t1 t2 t3 : List RawTrkpt)
    (h1 : t1.length = 5) (h2 : t2.length = 4) (h3 : t3.length = 3) :
    (parseGPXToSeries [t1, t2, t3]).toOption.map Series.stageScatter =
      some
        [⟨(distMiList (flatParsedPts [t1, t2, t3])).getD 4 0,
          (elevFtList (flatParsedPts [t1, t2, t3])).getD 4 none, false⟩,
         ⟨(distMiList (flatParsedPts [t1, t2, t3])).getD 8 0,
          (elevFtList (flatParsedPts [t1, t2, t3])).getD 8 none, false⟩,
         ⟨(distMiList (flatParsedPts [t1, t2, t3])).getD 11 0,
          (elevFtList (flatParsedPts [t1, t2, t3])).getD 11 none, true⟩] := by
  have hseg := stageEndIdx_scenarioB t1 t2 t3 h1 h2 h3
  simp only [parseGPXToSeries]
  rw [if_neg (by simp)]
  simp only [Except.toOption, Option.map_some']
  rw [hseg]
  rfl

/-- Witness for the three-marker theorem at the concrete 5/4/3 track. -/
theorem scenarioB_three_markers_witness :
    scenBt1.length = 5 ∧ scenBt2.length = 4 ∧ scenBt3.length = 3 ∧
      (parseGPXToSeries [scenBt1, scenBt2, scenBt3]).toOption.map Series.stageScatter =
        some
          [⟨(distMiList (flatParsedPts [scenBt1, scenBt2, scenBt3])).getD 4 0,
            (elevFtList (flatParsedPts [scenBt1, scenBt2, scenBt3])).getD 4 none,
            false⟩,
           ⟨(distMiList (flatParsedPts [scenBt1, scenBt2, scenBt3])).getD 8 0,
            (elevFtList (flatParsedPts [scenBt1, scenBt2, scenBt3])).getD 8 none,
            false⟩,
           ⟨(distMiList (flatParsedPts [scenBt1, scenBt2, scenBt3])).getD 11 0,
            (elevFtList (flatParsedPts [scenBt1, scenBt2, scenBt3])).getD 11 none,
            true⟩] :=
  ⟨rfl, rfl, rfl, scenarioB_three_markers scenBt1 scenBt2 scenBt3 rfl rfl rfl⟩

/-! ### Scenario A: one degree of longitude along the equator -/

theorem haversine_equator_one_degree :
    haversineMiles ⟨0, 0, some 0⟩ ⟨0, 1, some 0⟩ =
      2 * 6371 * (Real.pi / 360) * 0.621371 := by
  have h0 : haversineMiles ⟨0, 0, some 0⟩ ⟨0, 1, some 0⟩ =
      2 * 6371 * Real.arcsin (Real.sqrt (Real.sin (toRad (0 - 0) / 2) ^ 2 +
        Real.cos (toRad 0) * Real.cos (toRad 0) *
          Real.sin (toRad (1 - 0) / 2) ^ 2)) * 0.621371 := rfl
  have h12 : toRad (1 - 0) / 2 = Real.pi / 360 := by
    simp only [toRad]
    ring
  have h00 : toRad (0 - 0) / 2 = 0 := by
    simp [toRad]
  have hcos : Real.cos (toRad 0) = 1 := by
    simp [toRad]
  rw [h0, h12, h00, hcos]
  have hA : Real.sin 0 ^ 2 + 1 * 1 * Real.sin (Real.pi / 360) ^ 2 =
      Real.sin (Real.pi / 360) ^ 2 := by
    simp
  rw [hA]
  have hsin : 0 ≤ Real.sin (Real.pi / 360) := by
    apply Real.sin_nonneg_of_nonneg_of_le_pi
    · positivity
    · nlinarith [Real.pi_pos]
  rw [Real.sqrt_sq hsin]
  rw [Real.arcsin_sin (by nlinarith [Real.pi_pos]) (by nlinarith [Real.pi_pos])]

/-- C9 (counterexample): with the fixed Earth radius 6371 km and mile
factor 0.621371 the equatorial one-degree distance equals
`2 * 6371 * (π/360) * 0.621371 ≈ 69.093` miles, which is NOT within
`0.05` of the claimed `69.17` miles. -/
theorem scenarioA_not_69_17_cex :
    ¬ (|haversineMiles ⟨0, 0, some 0⟩ ⟨0, 1, some 0⟩ - 69.17| ≤ 0.05) := by
  rw [haversine_equator_one_degree]
  intro h
  obtain ⟨h1, h2⟩ := abs_le.mp h
  nlinarith [Real.pi_lt_d6]

/-- C9 (amended): the Scenario A distance computed by `haversineMiles`
is approximately `69.09` miles (within `0.01`). -/
theorem scenarioA_approx_69_09 :
    |haversineMiles ⟨0, 0, some 0⟩ ⟨0, 1, some 0⟩ - 69.09| ≤ 0.01 := by
  rw [haversine_equator_one_degree, abs_le]
  constructor <;> nlinarith [Real.pi_gt_d6, Real.pi_lt_d6]

/-! ### The nearest-index locator -/

theorem getD_mono_of_pairwise {α : Type} [LinearOrderedField α] {d : List α}
    (hs : List.Pairwise (· ≤ ·) d) {i j : ℕ} (hij : i ≤ j) (hj : j < d.length) :
    d.getD i 0 ≤ d.getD j 0 := by
  rcases eq_or_lt_of_le hij with rfl | hlt
  · exact le_refl _
  · have hi : i < d.length := lt_trans hlt hj
    rw [List.getD_eq_getElem _ _ hi, List.getD_eq_getElem _ _ hj]
    exact List.pairwise_iff_getElem.mp hs i j hi hj hlt

theorem kmToIndexLoop_range {α : Type} [LinearOrderedField α] (d : List α)
    (mi : α) (lo hi : ℕ) (h : lo ≤ hi) :
    lo ≤ kmToIndexLoop d mi lo hi ∧ kmToIndexLoop d mi lo hi ≤ hi := by
  rw [kmToIndexLoop]
  split
  · rename_i hlt
    split
    · have ih := kmToIndexLoop_range d mi ((lo + hi) / 2 + 1) hi (by omega)
      omega
    · have ih := kmToIndexLoop_range d mi lo ((lo + hi) / 2) (by omega)
      omega
  · omega
termination_by hi - lo
decreasing_by
  all_goals omega

theorem kmToIndexLoop_lowerBound {α : Type} [LinearOrderedField α] (d : List α)
    (mi : α) (hs : List.Pairwise (· ≤ ·) d) (lo hi : ℕ)
    (hlohi : lo ≤ hi) (hhi : hi < d.length)
    (hbelow : ∀ j, j < lo → d.getD j 0 < mi)
    (habove : mi ≤ d.getD hi 0) :
    (∀ j, j < kmToIndexLoop d mi lo hi → d.getD j 0 < mi) ∧
      mi ≤ d.getD (kmToIndexLoop d mi lo hi) 0 := by
  rw [kmToIndexLoop]
  split
  · rename_i hlt
    split
    · rename_i hmid
      refine kmToIndexLoop_lowerBound d mi hs ((lo + hi) / 2 + 1) hi (by omega) hhi
        ?_ habove
      intro j hj
      calc d.getD j 0 ≤ d.getD ((lo + hi) / 2) 0 :=
             getD_mono_of_pairwise hs (by omega) (by omega)
        _ < mi := hmid
    · rename_i hmid
      exact kmToIndexLoop_lowerBound d mi hs lo ((lo + hi) / 2) (by omega) (by omega)
        hbelow (le_of_not_lt hmid)
  · rename_i hge
    have hEq : lo = hi := by omega
    subst hEq
    exact ⟨hbelow, habove⟩
termination_by hi - lo
decreasing_by
  all_goals omega

theorem getLastD_eq_getD {α : Type} [LinearOrderedField α] (d : List α) :
    d.getLastD 0 = d.getD (d.length - 1) 0 := by
  rw [List.getLastD_eq_getLast?, List.getLast?_eq_getElem?, ← List.getD_eq_getElem?_getD]

/-- C1: for every non-decreasing distance series and query in
`[0, totalDistance]`, `kmToIndex` returns an index whose distance value is
at least as close to the query as that of any other index, and when the
two binary-search candidates `i1 = i2 - 1` and `i2` are exactly
equidistant from the query the lower index `i1` is returned. -/
theorem kmToIndex_nearest {α : Type} [LinearOrderedField α] (d : List α) (q : α)
    (hne : d ≠ []) (hchain : List.Chain' (· ≤ ·) d)
    (hq0 : 0 ≤ q) (htot : q ≤ d.getLastD 0) :
    (∀ j, j < d.length → |d.getD (kmToIndex d q) 0 - q| ≤ |d.getD j 0 - q|) ∧
      (|d.getD (kmToIndexLoop d q 0 (d.length - 1) - 1) 0 - q| =
          |d.getD (kmToIndexLoop d q 0 (d.length - 1)) 0 - q| →
        kmToIndex d q = kmToIndexLoop d q 0 (d.length - 1) - 1) := by
  have hs : List.Pairwise (· ≤ ·) d := List.chain'_iff_pairwise.mp hchain
  have hlen : 0 < d.length := List.length_pos.mpr hne
  have hlast : q ≤ d.getD (d.length - 1) 0 := by
    rw [← getLastD_eq_getD d]
    exact htot
  obtain ⟨hi2lo, hi2hi⟩ := kmToIndexLoop_range d q 0 (d.length - 1) (by omega)
  obtain ⟨hlow, hup⟩ := kmToIndexLoop_lowerBound d q hs 0 (d.length - 1) (by omega)
    (by omega) (fun j hj => absurd hj (by omega)) hlast
  set i2 := kmToIndexLoop d q 0 (d.length - 1) with hi2def
  have hkm : kmToIndex d q =
      if |d.getD (i2 - 1) 0 - q| ≤ |d.getD i2 0 - q| then i2 - 1 else i2 := rfl
  have habs2 : |d.getD i2 0 - q| = d.getD i2 0 - q := abs_of_nonneg (by linarith)
  constructor
  · intro j hj
    rw [hkm]
    rcases le_or_lt i2 j with hji | hji
    · have hdj : d.getD i2 0 ≤ d.getD j 0 := getD_mono_of_pairwise hs hji hj
      have habsj : |d.getD j 0 - q| = d.getD j 0 - q := abs_of_nonneg (by linarith)
      split
      · rename_i hc
        exact le_trans hc (by rw [habs2, habsj]; linarith)
      · rw [habs2, habsj]
        linarith
    · have hdjq : d.getD j 0 < q := hlow j hji
      have hi1q : d.getD (i2 - 1) 0 < q := hlow (i2 - 1) (by omega)
      have hi1lt : i2 - 1 < d.length := by omega
      have hdj : d.getD j 0 ≤ d.getD (i2 - 1) 0 :=
        getD_mono_of_pairwise hs (by omega) hi1lt
      have habsj : |d.getD j 0 - q| = q - d.getD j 0 := by
        rw [abs_sub_comm]
        exact abs_of_nonneg (by linarith)
      have habs1 : |d.getD (i2 - 1) 0 - q| = q - d.getD (i2 - 1) 0 := by
        rw [abs_sub_comm]
        exact abs_of_nonneg (by linarith)
      split
      · rename_i hc
        rw [habs1, habsj]
        linarith
      · rename_i hc
        have hcc : |d.getD i2 0 - q| < |d.getD (i2 - 1) 0 - q| := lt_of_not_le hc
        rw [habsj]
        rw [habs1] at hcc
        linarith
  · intro heq
    rw [hkm, if_pos (le_of_eq heq)]

/-- Witness for the locator-correctness theorem on the rational series
`[0, 1, 3]` with query `2`: both candidates are at distance `1`, and the
lower index is taken. -/
theorem kmToIndex_nearest_witness :
    (([0, 1, 3] : List ℚ) ≠ [] ∧ List.Chain' (· ≤ ·) ([0, 1, 3] : List ℚ) ∧
        (0 : ℚ) ≤ 2 ∧ (2 : ℚ) ≤ ([0, 1, 3] : List ℚ).getLastD 0) ∧
      (∀ j, j < ([0, 1, 3] : List ℚ).length →
          |([0, 1, 3] : List ℚ).getD (kmToIndex ([0, 1, 3] : List ℚ) 2) 0 - 2| ≤
            |([0, 1, 3] : List ℚ).getD j 0 - 2|) ∧
        (|([0, 1, 3] : List ℚ).getD
              (kmToIndexLoop ([0, 1, 3] : List ℚ) 2 0
                (([0, 1, 3] : List ℚ).length - 1) - 1) 0 - 2| =
            |([0, 1, 3] : List ℚ).getD
              (kmToIndexLoop ([0, 1, 3] : List ℚ) 2 0
                (([0, 1, 3] : List ℚ).length - 1)) 0 - 2| →
          kmToIndex ([0, 1, 3] : List ℚ) 2 =
            kmToIndexLoop ([0, 1, 3] : List ℚ) 2 0
              (([0, 1, 3] : List ℚ).length - 1) - 1) :=
  ⟨⟨by decide, by norm_num [List.chain'_cons], by decide, by decide⟩,
    kmToIndex_nearest ([0, 1, 3] : List ℚ) 2 (by decide)
      (by norm_num [List.chain'_cons]) (by decide) (by decide)⟩

/-- C10: the locator is total and in-bounds: for every non-empty track and
every real query — in range or not — `kmToIndex` over the track's
cumulative-distance series returns an index strictly below both the
series length and the point count, so the point lookup `pts[idx]` never
goes out of bounds. -/
theorem kmToIndex_within_bounds (pts : List TrkPt) (q : ℝ) (hne : pts ≠ []) :
    kmToIndex (distMiList pts) q < (distMiList pts).length ∧
      kmToIndex (distMiList pts) q < pts.length := by
  have hlen : (distMiList pts).length = max pts.length 1 := distMiList_length pts
  have hp : 1 ≤ pts.length := by
    cases pts with
    | nil => simp at hne
    | cons p r => simp
  obtain ⟨hr1, hr2⟩ :=
    kmToIndexLoop_range (distMiList pts) q 0 ((distMiList pts).length - 1) (by omega)
  have hkm : kmToIndex (distMiList pts) q =
      if |(distMiList pts).getD
            (kmToIndexLoop (distMiList pts) q 0 ((distMiList pts).length - 1) - 1) 0 - q| ≤
          |(distMiList pts).getD
            (kmToIndexLoop (distMiList pts) q 0 ((distMiList pts).length - 1)) 0 - q|
        then kmToIndexLoop (distMiList pts) q 0 ((distMiList pts).length - 1) - 1
        else kmToIndexLoop (distMiList pts) q 0 ((distMiList pts).length - 1) := rfl
  rw [hkm]
  split
  · constructor <;> omega
  · constructor <;> omega

/-- Witness for the in-bounds theorem: a one-point track queried at the
out-of-range distance `5`. -/
theorem kmToIndex_within_bounds_witness :
    ([⟨0, 0, some 0⟩] : List TrkPt) ≠ [] ∧
      kmToIndex (distMiList [⟨0, 0, some 0⟩]) 5 <
        ([⟨0, 0, some 0⟩] : List TrkPt).length :=
  ⟨by simp, (kmToIndex_within_bounds [⟨0, 0, some 0⟩] 5 (by simp)).2⟩

end PilgrimMapKit
